import Mathlib

/-!
Verification of the free-money-hack return pipeline.

The repository manipulates pandas DataFrames whose cells are floating-point
numbers with NaN as the missing-value marker.  We embed a DataFrame as an
ordered association list of named columns; a cell is `Option ℚ`, with `none`
playing the role of NaN (exact rational arithmetic stands in for floating
point, as the claims are stated up to floating tolerance).  Column assignment
`df[name] = col` overwrites an existing column in place and otherwise appends
the column at the right end, exactly as pandas does; `dropna` removes every
row in which some column holds a missing value; `pct_change` leaves the first
`periods` rows undefined and propagates missing endpoints (no forward fill);
`cumprod` skips missing entries while accumulating, leaving them missing in
the output.  The Python functions raise `KeyError` when reading an absent
column and `ValueError` when sampling from an empty array; those raises are
embedded as `Except.error`.
-/

abbrev Cell : Type := Option ℚ

abbrev Column : Type := List Cell

structure DataFrame where
  cols : List (String × Column)
deriving DecidableEq

/-- The column names of `Columns(StrEnum)` in historical.py. -/
def CLOSE : String := "Close"

def RETURN : String := "Return"

def LEV_CLOSE : String := "Leveraged Close"

def LEV_RETURN : String := "Leveraged Return"

def ADJ_CLOSE : String := "Adjusted Close"

def ADJ_RETURN : String := "Adjusted Return"

/-- Reading a column (`data[name]`): `none` models a Python `KeyError`. -/
def DataFrame.getCol (df : DataFrame) (name : String) : Option Column :=
  (df.cols.find? (fun p => p.1 == name)).map Prod.snd

/-- `name in data.columns`. -/
def DataFrame.hasCol (df : DataFrame) (name : String) : Bool :=
  (df.cols.find? (fun p => p.1 == name)).isSome

def setColAux (cols : List (String × Column)) (name : String) (c : Column) :
    List (String × Column) :=
  match cols with
  | [] => [(name, c)]
  | (n, old) :: rest =>
      if n == name then (n, c) :: rest else (n, old) :: setColAux rest name c

/-- Column assignment `data[name] = c`: replace in place, else append. -/
def DataFrame.setCol (df : DataFrame) (name : String) (c : Column) : DataFrame :=
  ⟨setColAux df.cols name c⟩

/-- `del data[name]`. -/
def DataFrame.delCol (df : DataFrame) (name : String) : DataFrame :=
  ⟨df.cols.filter (fun p => p.1 != name)⟩

/-- Number of rows (length of the shared index). -/
def DataFrame.nrows (df : DataFrame) : Nat :=
  match df.cols with
  | [] => 0
  | (_, c) :: _ => c.length

/-- `series.pct_change(periods)` with no forward fill: the first `periods`
rows are missing, and a missing endpoint makes the result missing. -/
def pctChange (c : Column) (periods : Nat) : Column :=
  (List.range c.length).map (fun i =>
    if periods ≤ i then
      match c.getD i none, c.getD (i - periods) none with
      | some a, some b => some (a / b - 1)
      | _, _ => none
    else none)

/-- `series * k` for a scalar `k`. -/
def colScale (c : Column) (k : ℚ) : Column :=
  c.map (fun x => x.map (fun v => v * k))

/-- `1 + series`. -/
def colAddOne (c : Column) : Column :=
  c.map (fun x => x.map (fun v => 1 + v))

/-- `series - k` for a scalar `k`. -/
def colSubScalar (c : Column) (k : ℚ) : Column :=
  c.map (fun x => x.map (fun v => v - k))

def cumprodAux (acc : ℚ) : Column → Column
  | [] => []
  | none :: rest => none :: cumprodAux acc rest
  | some x :: rest => some (acc * x) :: cumprodAux (acc * x) rest

/-- `series.cumprod()` (pandas default `skipna=True`: missing entries stay
missing and do not enter the accumulated product). -/
def colCumprod (c : Column) : Column :=
  cumprodAux 1 c

/-- Whether row `i` survives `dropna` (no column missing at `i`). -/
def DataFrame.keepRow (df : DataFrame) (i : Nat) : Bool :=
  df.cols.all (fun p => (p.2.getD i none).isSome)

/-- The row indices kept by `dropna`. -/
def DataFrame.keptRows (df : DataFrame) : List Nat :=
  (List.range df.nrows).filter df.keepRow

/-- `data.dropna()`. -/
def DataFrame.dropna (df : DataFrame) : DataFrame :=
  ⟨df.cols.map (fun p => (p.1, df.keptRows.map (fun i => p.2.getD i none)))⟩

/-- Reading a column as `data[name]` does in Python: `KeyError` when the
column is absent. -/
def getColE (df : DataFrame) (n : String) : Except String Column :=
  match df.getCol n with
  | none => Except.error ("KeyError: " ++ n)
  | some c => Except.ok c

/-- historical.py `compute_daily_returns`: percentage change of the closes,
then `dropna`. -/
def compute_daily_returns (data : DataFrame) : Except String DataFrame :=
  match data.getCol CLOSE with
  | none => Except.error "KeyError: Close"
  | some close =>
      Except.ok ((data.setCol RETURN (pctChange close 1)).dropna)

/-- historical.py `column_prefixer`: the string `leverage ++ "x " ++ col`
(the Python f-string renders the leverage float; rendering is abstracted as
the string argument). -/
def column_prefixer (col : String) (leverage : String) : String :=
  leverage ++ "x " ++ col

/-- historical.py `compute_leveraged_returns`.  Reading the absent base
return column is a `KeyError`.  The float-to-string rendering of the
leverage in the prefixed column names is modelled by `toString` on ℚ. -/
def compute_leveraged_returns (data : DataFrame) (leverage : ℚ)
    (initial_value : ℚ) (pre : Bool) : Except String DataFrame :=
  let lev_close := if pre then column_prefixer LEV_CLOSE (toString leverage) else LEV_CLOSE
  let lev_return := if pre then column_prefixer LEV_RETURN (toString leverage) else LEV_RETURN
  match data.getCol RETURN with
  | none => Except.error "KeyError: Return"
  | some baseRet =>
      let levRet := colScale baseRet leverage
      let d1 := data.setCol lev_return levRet
      Except.ok (d1.setCol lev_close (colScale (colCumprod (colAddOne levRet)) initial_value))

/-- historical.py `adjust_for_mer`: subtract `mer / 252` from the leveraged
return column when it exists, otherwise from the base return column, and
recompound from `initial_value`. -/
def adjust_for_mer (data : DataFrame) (mer : ℚ) (initial_value : ℚ)
    (pre : String) : Except String DataFrame :=
  let adj_close := if pre = "" then ADJ_CLOSE else column_prefixer ADJ_CLOSE pre
  let adj_return := if pre = "" then ADJ_RETURN else column_prefixer ADJ_RETURN pre
  let lev_return := if pre = "" then LEV_RETURN else column_prefixer LEV_RETURN pre
  let daily_mer := mer / 252
  let column := if data.hasCol lev_return then lev_return else RETURN
  match data.getCol column with
  | none => Except.error "KeyError: Return"
  | some src =>
      let adjRet := colSubScalar src daily_mer
      let d1 := data.setCol adj_return adjRet
      Except.ok (d1.setCol adj_close (colScale (colCumprod (colAddOne adjRet)) initial_value))

/-- The column-removal loop of `compute_multiple_leverages`: every
`Columns` entry other than `Close` and `Return` is deleted when present
(deleting an absent column is a no-op). -/
def removePreexisting (data : DataFrame) : DataFrame :=
  (((data.delCol LEV_CLOSE).delCol LEV_RETURN).delCol ADJ_CLOSE).delCol ADJ_RETURN

/-- The `for leverage, mer in zip(leverages, mers)` loop of
`compute_multiple_leverages`. -/
def batchLoop (initial_value : ℚ) : DataFrame → List (ℚ × ℚ) → Except String DataFrame
  | data, [] => Except.ok data
  | data, (leverage, mer) :: rest =>
      (compute_leveraged_returns data leverage initial_value true).bind fun d1 =>
      (adjust_for_mer d1 mer initial_value (toString leverage)).bind fun d2 =>
      batchLoop initial_value d2 rest

/-- historical.py `compute_multiple_leverages`: derive returns when absent,
strip pre-existing single-pass leverage columns, then run the zipped
(leverage, mer) pairs. -/
def compute_multiple_leverages (data : DataFrame) (leverages : List ℚ)
    (mers : List ℚ) (initial_value : ℚ) : Except String DataFrame :=
  (if data.hasCol RETURN then Except.ok data else compute_daily_returns data).bind fun d =>
  batchLoop initial_value (removePreexisting d) (leverages.zip mers)

/-- rollingwindow.py `generate_rolling_returns`: full single-leverage
pipeline, then an in-place trailing `window`-period percentage change
(×100) of the three price columns, then `dropna`. -/
def generate_rolling_returns (reference_data : DataFrame) (window : Nat)
    (initial_value : ℚ) (mer : ℚ) (leverage : ℚ) : Except String DataFrame :=
  (compute_daily_returns reference_data).bind fun data0 =>
  (compute_leveraged_returns data0 leverage initial_value false).bind fun data1 =>
  (adjust_for_mer data1 mer initial_value "").bind fun data2 =>
  (getColE data2 CLOSE).bind fun c =>
  let data3 := data2.setCol CLOSE (colScale (pctChange c window) 100)
  (getColE data3 LEV_CLOSE).bind fun lc =>
  let data4 := data3.setCol LEV_CLOSE (colScale (pctChange lc window) 100)
  (getColE data4 ADJ_CLOSE).bind fun ac =>
  let data5 := data4.setCol ADJ_CLOSE (colScale (pctChange ac window) 100)
  Except.ok data5.dropna

/-- simulator.py `generate_random_returns`: derive the historical daily
returns, draw `size` samples with replacement, compound a synthetic close
path from `initial_value`, then apply leverage and expense drag.  The
draw of `np.random.choice` is modelled by an index oracle `pick`; every
draw is an index below the number of historical returns, hence the
reduction modulo their count.  `np.random.choice` on an empty array raises
`ValueError`. -/
def generate_random_returns (reference_data : DataFrame) (pick : Nat → Nat)
    (size : Nat) (initial_value : ℚ) (mer : ℚ) (leverage : ℚ) :
    Except String DataFrame :=
  (compute_daily_returns reference_data).bind fun data0 =>
  (getColE data0 RETURN).bind fun rets =>
  if rets.length = 0 then Except.error "ValueError: a must be non-empty"
  else
    let sampled : Column :=
      (List.range size).map (fun i => rets.getD (pick i % rets.length) none)
    let data1 : DataFrame := ⟨[(RETURN, sampled)]⟩
    let data2 := data1.setCol CLOSE (colScale (colCumprod (colAddOne sampled)) initial_value)
    (compute_leveraged_returns data2 leverage initial_value false).bind fun data3 =>
    adjust_for_mer data3 mer initial_value ""

/-- Compounded price at step `i`: the product of `1 + r` over the first
`i + 1` returns (so `prodOnePlus rs i * V` is the close reconstructed by
cumulative compounding from `V`). -/
def prodOnePlus (rs : List ℚ) (i : Nat) : ℚ :=
  ((rs.take (i + 1)).map (fun r => 1 + r)).prod

/-- Row count of an `ok` result. -/
def okNrows (e : Except String DataFrame) : Option Nat :=
  match e with
  | Except.ok d => some d.nrows
  | Except.error _ => none

/-- Column of an `ok` result. -/
def okGetCol (e : Except String DataFrame) (n : String) : Option Column :=
  match e with
  | Except.ok d => d.getCol n
  | Except.error _ => none

/-- Column count of an `ok` result. -/
def okNcols (e : Except String DataFrame) : Option Nat :=
  match e with
  | Except.ok d => some d.cols.length
  | Except.error _ => none

/-- The simple returns of a gap-free close series:
`r_j = close_{j+1} / close_j - 1`. -/
def dailyReturns (cs : List ℚ) : List ℚ :=
  (List.range (cs.length - 1)).map (fun j => cs.getD (j + 1) 0 / cs.getD j 0 - 1)

/-- Row `i` of a close column admits a simple return: it is not the first
row and both endpoints are present. -/
def validStep (c : Column) (i : Nat) : Bool :=
  decide (1 ≤ i) && (c.getD i none).isSome && (c.getD (i - 1) none).isSome

/-- The rows of a close column surviving return derivation. -/
def keptSteps (c : Column) : List Nat :=
  (List.range c.length).filter (validStep c)

/-! ### Column-lookup algebra -/

theorem getCol_isSome_iff_hasCol (df : DataFrame) (n : String) :
    (df.getCol n).isSome = df.hasCol n := by
  simp [DataFrame.getCol, DataFrame.hasCol]

theorem find?_setColAux_self (n : String) (c : Column) :
    ∀ l : List (String × Column),
      (setColAux l n c).find? (fun p => p.1 == n) = some (n, c)
  | [] => by simp [setColAux]
  | (m, old) :: rest => by
    by_cases h : m = n
    · subst h
      simp [setColAux]
    · have hb : (m == n) = false := beq_false_of_ne h
      simp only [setColAux, hb, Bool.false_eq_true, if_false]
      rw [List.find?_cons_of_neg _ (by simp [hb])]
      exact find?_setColAux_self n c rest

theorem find?_setColAux_ne (n x : String) (hx : x ≠ n) (c : Column) :
    ∀ l : List (String × Column),
      (setColAux l n c).find? (fun p => p.1 == x) = l.find? (fun p => p.1 == x)
  | [] => by
    have hb : (n == x) = false := beq_false_of_ne (Ne.symm hx)
    simp [setColAux, hb]
  | (m, old) :: rest => by
    by_cases hmn : m = n
    · subst hmn
      have hmx : (m == x) = false := beq_false_of_ne (fun h => hx (h ▸ rfl))
      simp only [setColAux, beq_self_eq_true, if_true]
      rw [List.find?_cons_of_neg _ (by simp [hmx]),
        List.find?_cons_of_neg _ (by simp [hmx])]
    · have hb : (m == n) = false := beq_false_of_ne hmn
      simp only [setColAux, hb, Bool.false_eq_true, if_false]
      by_cases hmx : m = x
      · subst hmx
        rw [List.find?_cons_of_pos _ (by simp), List.find?_cons_of_pos _ (by simp)]
      · rw [List.find?_cons_of_neg _ (by simp [beq_false_of_ne hmx]),
          List.find?_cons_of_neg _ (by simp [beq_false_of_ne hmx])]
        exact find?_setColAux_ne n x hx c rest

theorem getCol_setCol_self (df : DataFrame) (n : String) (c : Column) :
    (df.setCol n c).getCol n = some c := by
  simp [DataFrame.getCol, DataFrame.setCol, find?_setColAux_self]

theorem getCol_setCol_ne (df : DataFrame) {n x : String} (hx : x ≠ n) (c : Column) :
    (df.setCol n c).getCol x = df.getCol x := by
  simp [DataFrame.getCol, DataFrame.setCol, find?_setColAux_ne n x hx]

theorem find?_filter_ne (n x : String) (hx : x ≠ n) :
    ∀ l : List (String × Column),
      (l.filter (fun p => p.1 != n)).find? (fun p => p.1 == x) =
        l.find? (fun p => p.1 == x)
  | [] => rfl
  | (m, c) :: rest => by
    by_cases hmn : m = n
    · subst hmn
      have hmx : (m == x) = false := beq_false_of_ne (fun h => hx (h ▸ rfl))
      simp only [List.filter, bne_self_eq_false, Bool.false_eq_true, if_false]
      rw [List.find?_cons_of_neg _ (by simp [hmx])]
      exact find?_filter_ne _ x hx rest
    · have hb : (m != n) = true := by simp [bne, beq_false_of_ne hmn]
      simp only [List.filter, hb, if_true]
      by_cases hmx : m = x
      · subst hmx
        rw [List.find?_cons_of_pos _ (by simp), List.find?_cons_of_pos _ (by simp)]
      · rw [List.find?_cons_of_neg _ (by simp [beq_false_of_ne hmx]),
          List.find?_cons_of_neg _ (by simp [beq_false_of_ne hmx])]
        exact find?_filter_ne n x hx rest

theorem getCol_delCol_ne (df : DataFrame) {n x : String} (hx : x ≠ n) :
    (df.delCol n).getCol x = df.getCol x := by
  simp [DataFrame.getCol, DataFrame.delCol, find?_filter_ne n x hx]

theorem getCol_dropna (df : DataFrame) (x : String) :
    df.dropna.getCol x =
      (df.getCol x).map (fun c => df.keptRows.map (fun i => c.getD i none)) := by
  unfold DataFrame.dropna DataFrame.getCol
  rw [List.find?_map]
  simp only [Option.map_map]
  rfl

/-! ### Name disjointness for the string-templated column keys -/

theorem str_append_ne_of_not_suffix {t u : String} (ht : ¬ t.data <:+ u.data)
    (hu : ¬ u.data <:+ t.data) (s r : String) : s ++ t ≠ r ++ u := by
  intro h
  have hd := congrArg String.data h
  rw [String.data_append, String.data_append] at hd
  rcases List.append_eq_append_iff.mp hd with ⟨a, _, h2⟩ | ⟨c, _, h2⟩
  · exact hu ⟨a, h2.symm⟩
  · exact ht ⟨c, h2.symm⟩

theorem column_prefixer_eq_append (col s : String) :
    column_prefixer col s = s ++ ("x " ++ col) := by
  rw [column_prefixer, String.append_assoc]

theorem column_prefixer_ne_cross {c1 c2 : String}
    (h1 : ¬ ("x " ++ c1).data <:+ ("x " ++ c2).data)
    (h2 : ¬ ("x " ++ c2).data <:+ ("x " ++ c1).data)
    (s1 s2 : String) : column_prefixer c1 s1 ≠ column_prefixer c2 s2 := by
  rw [column_prefixer_eq_append, column_prefixer_eq_append]
  exact str_append_ne_of_not_suffix h1 h2 s1 s2

theorem column_prefixer_ne_same_col {c : String} {s1 s2 : String} (h : s1 ≠ s2) :
    column_prefixer c s1 ≠ column_prefixer c s2 := by
  rw [column_prefixer_eq_append, column_prefixer_eq_append]
  intro he
  apply h
  apply String.ext
  have hd := congrArg String.data he
  rw [String.data_append, String.data_append] at hd
  exact List.append_cancel_right hd

theorem column_prefixer_inj_col {c1 c2 : String} (h : c1 ≠ c2) (s : String) :
    column_prefixer c1 s ≠ column_prefixer c2 s := by
  intro he
  apply h
  apply String.ext
  have hd := congrArg String.data he
  rw [column_prefixer, column_prefixer] at hd
  simp only [String.data_append] at hd
  exact List.append_cancel_left hd

theorem column_prefixer_ne_short (c : String) (t : String)
    (h : t.length < ("x " ++ c).length) (s : String) : column_prefixer c s ≠ t := by
  intro he
  have hl := congrArg String.length he
  rw [column_prefixer_eq_append, String.length_append] at hl
  omega

/-! ### Pointwise evaluation of the column operations -/

theorem pctChange_length (c : Column) (p : Nat) : (pctChange c p).length = c.length := by
  simp [pctChange]

theorem pctChange_getD (c : Column) (p i : Nat) :
    (pctChange c p).getD i none =
      if i < c.length ∧ p ≤ i then
        (match c.getD i none, c.getD (i - p) none with
         | some a, some b => some (a / b - 1)
         | _, _ => none)
      else none := by
  rw [pctChange, List.getD_eq_getElem?_getD, List.getElem?_map]
  by_cases h : i < c.length
  · rw [List.getElem?_range h]
    by_cases hp : p ≤ i
    · simp [h, hp]
    · simp [h, hp]
  · rw [List.getElem?_eq_none (by simpa using h)]
    simp [h]

theorem getD_map_some (l : List ℚ) {i : Nat} (h : i < l.length) :
    (l.map some).getD i none = some (l.getD i 0) := by
  rw [List.getD_eq_getElem?_getD, List.getElem?_map, List.getElem?_eq_getElem h,
    List.getD_eq_getElem l 0 h]
  rfl

theorem isSome_getD_map_some (l : List ℚ) (i : Nat) :
    ((l.map some).getD i none).isSome = decide (i < l.length) := by
  by_cases h : i < l.length
  · rw [getD_map_some l h]
    simp [h]
  · rw [List.getD_eq_getElem?_getD, List.getElem?_eq_none (by simpa using h)]
    simp [h]

theorem colScale_map_some (l : List ℚ) (k : ℚ) :
    colScale (l.map some) k = (l.map (fun v => v * k)).map some := by
  simp [colScale, List.map_map]

theorem colAddOne_map_some (l : List ℚ) :
    colAddOne (l.map some) = (l.map (fun v => 1 + v)).map some := by
  simp [colAddOne, List.map_map]

theorem colSubScalar_map_some (l : List ℚ) (k : ℚ) :
    colSubScalar (l.map some) k = (l.map (fun v => v - k)).map some := by
  simp [colSubScalar, List.map_map]

theorem cumprodAux_map_some (l : List ℚ) :
    ∀ a : ℚ, cumprodAux a (l.map some) =
      (List.range l.length).map (fun i => some (a * (l.take (i + 1)).prod)) := by
  induction l with
  | nil => intro a; simp [cumprodAux]
  | cons x xs ih =>
    intro a
    simp only [List.map_cons, cumprodAux, List.length_cons, List.range_succ_eq_map,
      List.map_cons, List.map_map, List.take_succ_cons, List.prod_cons]
    congr 1
    · simp
    · rw [ih (a * x)]
      apply List.map_congr_left
      intro j _
      simp only [Function.comp_apply, Nat.succ_eq_add_one, List.take_succ_cons,
        List.prod_cons]
      rw [mul_assoc]

theorem compound_map_some (l : List ℚ) (V : ℚ) :
    colScale (colCumprod (colAddOne (l.map some))) V =
      (List.range l.length).map (fun i => some (V * prodOnePlus l i)) := by
  rw [colAddOne_map_some, colCumprod, cumprodAux_map_some, List.length_map]
  unfold colScale
  rw [List.map_map]
  apply List.map_congr_left
  intro i _
  simp only [Function.comp_apply, Option.map_some', prodOnePlus]
  rw [List.map_take, one_mul, mul_comm]

theorem length_colScale (c : Column) (k : ℚ) : (colScale c k).length = c.length :=
  List.length_map c _

theorem length_cumprodAux : ∀ (c : Column) (a : ℚ), (cumprodAux a c).length = c.length
  | [], _ => rfl
  | none :: rest, a => by simp [cumprodAux, length_cumprodAux rest a]
  | some x :: rest, a => by simp [cumprodAux, length_cumprodAux rest (a * x)]

theorem length_colAddOne (c : Column) : (colAddOne c).length = c.length :=
  List.length_map c _

/-! ### Evaluation of the transformer functions -/

theorem clr_eval_plain (df : DataFrame) (rs : Column) (L V : ℚ)
    (h : df.getCol RETURN = some rs) :
    compute_leveraged_returns df L V false = Except.ok
      ((df.setCol LEV_RETURN (colScale rs L)).setCol LEV_CLOSE
        (colScale (colCumprod (colAddOne (colScale rs L))) V)) := by
  simp [compute_leveraged_returns, h]

theorem clr_eval_pre (df : DataFrame) (rs : Column) (L V : ℚ)
    (h : df.getCol RETURN = some rs) :
    compute_leveraged_returns df L V true = Except.ok
      ((df.setCol (column_prefixer LEV_RETURN (toString L)) (colScale rs L)).setCol
        (column_prefixer LEV_CLOSE (toString L))
        (colScale (colCumprod (colAddOne (colScale rs L))) V)) := by
  simp [compute_leveraged_returns, h]

theorem clr_keyError (df : DataFrame) (L V : ℚ) (p : Bool)
    (h : df.getCol RETURN = none) :
    compute_leveraged_returns df L V p = Except.error "KeyError: Return" := by
  simp [compute_leveraged_returns, h]

theorem afm_eval_unprefixed (df : DataFrame) (src : Column) (E V : ℚ)
    (h : df.getCol LEV_RETURN = some src ∨
      (df.getCol LEV_RETURN = none ∧ df.getCol RETURN = some src)) :
    adjust_for_mer df E V "" = Except.ok
      ((df.setCol ADJ_RETURN (colSubScalar src (E / 252))).setCol ADJ_CLOSE
        (colScale (colCumprod (colAddOne (colSubScalar src (E / 252)))) V)) := by
  rcases h with h1 | ⟨h0, h1⟩
  · have hc : df.hasCol LEV_RETURN = true := by
      rw [← getCol_isSome_iff_hasCol, h1]
      rfl
    simp [adjust_for_mer, hc, h1]
  · have hc : df.hasCol LEV_RETURN = false := by
      rw [← getCol_isSome_iff_hasCol, h0]
      rfl
    simp [adjust_for_mer, hc, h1]

theorem afm_eval_prefixed (df : DataFrame) (src : Column) (E V : ℚ) (s : String)
    (hs : s ≠ "") (h : df.getCol (column_prefixer LEV_RETURN s) = some src) :
    adjust_for_mer df E V s = Except.ok
      ((df.setCol (column_prefixer ADJ_RETURN s) (colSubScalar src (E / 252))).setCol
        (column_prefixer ADJ_CLOSE s)
        (colScale (colCumprod (colAddOne (colSubScalar src (E / 252)))) V)) := by
  have hc : df.hasCol (column_prefixer LEV_RETURN s) = true := by
    rw [← getCol_isSome_iff_hasCol, h]
    rfl
  simp [adjust_for_mer, hs, hc, h]

/-! ### Claims C1 and C2 -/

/-- C1: for every series holding a base return column, every leverage
multiplier (negative and fractional included, no clamping) and every
initial value, `compute_leveraged_returns` yields
`leveragedReturn_i = r_i * leverage` and
`leveragedClose_i = initial_value * Π_{k ≤ i} (1 + leveragedReturn_k)`. -/
theorem C1_applyLeverage (df : DataFrame) (rs : List ℚ) (L V : ℚ)
    (h : df.getCol RETURN = some (rs.map some)) :
    ∃ out, compute_leveraged_returns df L V false = Except.ok out ∧
      out.getCol LEV_RETURN = some ((rs.map (fun r => r * L)).map some) ∧
      out.getCol LEV_CLOSE =
        some ((List.range rs.length).map
          (fun i => some (V * prodOnePlus (rs.map (fun r => r * L)) i))) := by
  refine ⟨_, clr_eval_plain df (rs.map some) L V h, ?_, ?_⟩
  · rw [getCol_setCol_ne _ (by decide) _, getCol_setCol_self, colScale_map_some]
  · rw [getCol_setCol_self, colScale_map_some, compound_map_some, List.length_map]

/-- Witness for C1 at a one-row return series with leverage 2 and
initial value 100. -/
theorem C1_applyLeverage_witness :
    ∃ out, compute_leveraged_returns ⟨[(RETURN, [(1 : ℚ)/10].map some)]⟩ 2 100 false =
        Except.ok out ∧
      out.getCol LEV_RETURN = some (([(1 : ℚ)/10].map (fun r => r * 2)).map some) ∧
      out.getCol LEV_CLOSE =
        some ((List.range [(1 : ℚ)/10].length).map
          (fun i => some (100 * prodOnePlus ([(1 : ℚ)/10].map (fun r => r * 2)) i))) :=
  C1_applyLeverage ⟨[(RETURN, [(1 : ℚ)/10].map some)]⟩ [(1 : ℚ)/10] 2 100 rfl

/-- C2: `adjust_for_mer` computes `adjustedReturn_i = sourceReturn_i - mer/252`
and `adjustedClose_i = initial_value * Π_{k ≤ i} (1 + adjustedReturn_k)`, where
the source is the leveraged return column whenever it exists (it always takes
precedence) and the base return column otherwise. -/
theorem C2_applyExpenseDrag (df : DataFrame) (src : List ℚ) (E V : ℚ)
    (h : df.getCol LEV_RETURN = some (src.map some) ∨
      (df.getCol LEV_RETURN = none ∧ df.getCol RETURN = some (src.map some))) :
    ∃ out, adjust_for_mer df E V "" = Except.ok out ∧
      out.getCol ADJ_RETURN = some ((src.map (fun r => r - E / 252)).map some) ∧
      out.getCol ADJ_CLOSE =
        some ((List.range src.length).map
          (fun i => some (V * prodOnePlus (src.map (fun r => r - E / 252)) i))) := by
  refine ⟨_, afm_eval_unprefixed df (src.map some) E V h, ?_, ?_⟩
  · rw [getCol_setCol_ne _ (by decide) _, getCol_setCol_self, colSubScalar_map_some]
  · rw [getCol_setCol_self, colSubScalar_map_some, compound_map_some, List.length_map]

/-- Witness for C2 at a series holding both a leveraged and a base return
column with different values: the leveraged one is the source used. -/
theorem C2_applyExpenseDrag_witness :
    ∃ out, adjust_for_mer ⟨[(RETURN, [some 7]), (LEV_RETURN, [(1 : ℚ)/5].map some)]⟩
        (63 : ℚ) 100 "" = Except.ok out ∧
      out.getCol ADJ_RETURN = some (([(1 : ℚ)/5].map (fun r => r - 63 / 252)).map some) ∧
      out.getCol ADJ_CLOSE =
        some ((List.range [(1 : ℚ)/5].length).map
          (fun i => some (100 * prodOnePlus ([(1 : ℚ)/5].map (fun r => r - 63 / 252)) i))) :=
  C2_applyExpenseDrag ⟨[(RETURN, [some 7]), (LEV_RETURN, [(1 : ℚ)/5].map some)]⟩
    [(1 : ℚ)/5] 63 100 (Or.inl rfl)

/-! ### Characterising compute_daily_returns -/

theorem cdr_eval (c : Column) :
    compute_daily_returns ⟨[(CLOSE, c)]⟩ =
      Except.ok (DataFrame.dropna ⟨[(CLOSE, c), (RETURN, pctChange c 1)]⟩) := rfl

theorem range_filter_one_le (N : Nat) :
    (List.range N).filter (fun i => decide (1 ≤ i)) =
      (List.range (N - 1)).map (fun j => j + 1) := by
  cases N with
  | zero => rfl
  | succ n =>
    rw [List.range_succ_eq_map, List.filter_cons]
    have h0 : (decide (1 ≤ 0)) = false := by decide
    rw [h0]
    simp only [Bool.false_eq_true, if_false]
    rw [List.filter_map]
    have hTrue : ((fun i => decide (1 ≤ i)) ∘ Nat.succ) = fun _ => true := by
      funext i
      simp
    rw [hTrue, List.filter_true]
    simp [Nat.succ_eq_add_one]

theorem keptRows_daily (c : Column) :
    DataFrame.keptRows ⟨[(CLOSE, c), (RETURN, pctChange c 1)]⟩ = keptSteps c := by
  have hsh : DataFrame.keptRows ⟨[(CLOSE, c), (RETURN, pctChange c 1)]⟩ =
      (List.range c.length).filter (fun i =>
        (c.getD i none).isSome &&
          (((pctChange c 1).getD i none).isSome && true)) := rfl
  rw [hsh]
  unfold keptSteps
  apply List.filter_congr
  intro i hi
  rw [List.mem_range] at hi
  unfold validStep
  rw [pctChange_getD]
  by_cases h1 : 1 ≤ i
  · rw [if_pos ⟨hi, h1⟩]
    cases hx : c.getD i none with
    | none => simp [hx, h1]
    | some a =>
      cases hy : c.getD (i - 1) none with
      | none => simp [hx, hy, h1]
      | some b => simp [hx, hy, h1]
  · rw [if_neg (fun hh => h1 hh.2)]
    simp [h1]

theorem keptRows_daily_allSome (cs : List ℚ) :
    DataFrame.keptRows ⟨[(CLOSE, cs.map some), (RETURN, pctChange (cs.map some) 1)]⟩ =
      (List.range (cs.length - 1)).map (fun j => j + 1) := by
  rw [keptRows_daily]
  unfold keptSteps
  rw [List.length_map, ← range_filter_one_le]
  apply List.filter_congr
  intro i hi
  rw [List.mem_range] at hi
  unfold validStep
  rw [isSome_getD_map_some, isSome_getD_map_some]
  have hi1 : i - 1 < cs.length := by omega
  simp [hi, hi1]

theorem drop_one_map_some (cs : List ℚ) :
    ((List.range (cs.length - 1)).map (fun j => j + 1)).map
        (fun i => (cs.map some).getD i none) = (cs.drop 1).map some := by
  rw [List.map_map]
  apply List.ext_getElem
  · simp
  · intro n h1 h2
    simp only [List.getElem_map, List.getElem_range, Function.comp_apply]
    have hn : n + 1 < cs.length := by
      simp only [List.length_map, List.length_range] at h1
      omega
    rw [getD_map_some _ hn, List.getElem_drop]
    rw [List.getD_eq_getElem _ _ hn]
    have hadd : 1 + n = n + 1 := Nat.add_comm 1 n
    simp only [hadd]

theorem return_col_allSome (cs : List ℚ) :
    ((List.range (cs.length - 1)).map (fun j => j + 1)).map
        (fun i => (pctChange (cs.map some) 1).getD i none) =
      (dailyReturns cs).map some := by
  unfold dailyReturns
  rw [List.map_map, List.map_map]
  apply List.map_congr_left
  intro j hj
  rw [List.mem_range] at hj
  simp only [Function.comp_apply]
  rw [pctChange_getD]
  have hjl : j + 1 < cs.length := by omega
  rw [if_pos ⟨by simpa using hjl, by omega⟩]
  have h0 : j + 1 - 1 = j := rfl
  rw [getD_map_some _ hjl, h0, getD_map_some _ (by omega)]

theorem cdr_allSome (cs : List ℚ) :
    compute_daily_returns ⟨[(CLOSE, cs.map some)]⟩ =
      Except.ok ⟨[(CLOSE, (cs.drop 1).map some),
        (RETURN, (dailyReturns cs).map some)]⟩ := by
  rw [cdr_eval]
  congr 1
  have hd : DataFrame.dropna ⟨[(CLOSE, cs.map some), (RETURN, pctChange (cs.map some) 1)]⟩ =
      ⟨[(CLOSE,
          (DataFrame.keptRows
            ⟨[(CLOSE, cs.map some), (RETURN, pctChange (cs.map some) 1)]⟩).map
              (fun i => (cs.map some).getD i none)),
        (RETURN,
          (DataFrame.keptRows
            ⟨[(CLOSE, cs.map some), (RETURN, pctChange (cs.map some) 1)]⟩).map
              (fun i => (pctChange (cs.map some) 1).getD i none))]⟩ := rfl
  rw [hd, keptRows_daily_allSome, drop_one_map_some, return_col_allSome]

/-! ### Claim C3 -/

/-- C3 counterexample: on a one-point price series (fewer than 2 valid price
points) `compute_daily_returns` does not fail with any error; it returns an
empty series. -/
theorem C3_deriveReturns_counterexample :
    compute_daily_returns ⟨[(CLOSE, [some 100])]⟩ =
      Except.ok ⟨[(CLOSE, []), (RETURN, [])]⟩ ∧
    okNrows (compute_daily_returns ⟨[(CLOSE, [some 100])]⟩) = some 0 :=
  ⟨rfl, rfl⟩

/-- C3 amended: `compute_daily_returns` computes
`r_i = close_i / close_{i-1} - 1`, keeping exactly the rows that are not the
first and have both endpoints present; when fewer than 2 valid price points
remain it returns an empty series (never an error). -/
theorem C3_deriveReturns_amended (c : Column) :
    ∃ out, compute_daily_returns ⟨[(CLOSE, c)]⟩ = Except.ok out ∧
      out.getCol CLOSE = some ((keptSteps c).map (fun i => c.getD i none)) ∧
      out.getCol RETURN = some ((keptSteps c).map (fun i =>
        some ((c.getD i none).getD 0 / (c.getD (i - 1) none).getD 0 - 1))) ∧
      out.nrows = (keptSteps c).length := by
  have hd : DataFrame.dropna ⟨[(CLOSE, c), (RETURN, pctChange c 1)]⟩ =
      ⟨[(CLOSE,
          (DataFrame.keptRows ⟨[(CLOSE, c), (RETURN, pctChange c 1)]⟩).map
            (fun i => c.getD i none)),
        (RETURN,
          (DataFrame.keptRows ⟨[(CLOSE, c), (RETURN, pctChange c 1)]⟩).map
            (fun i => (pctChange c 1).getD i none))]⟩ := rfl
  refine ⟨_, cdr_eval c, ?_, ?_, ?_⟩
  · rw [hd, keptRows_daily]
    rfl
  · rw [hd, keptRows_daily]
    have hmap : (keptSteps c).map (fun i => (pctChange c 1).getD i none) =
        (keptSteps c).map (fun i =>
          some ((c.getD i none).getD 0 / (c.getD (i - 1) none).getD 0 - 1)) := by
      apply List.map_congr_left
      intro i hi
      unfold keptSteps at hi
      rw [List.mem_filter, List.mem_range] at hi
      obtain ⟨hlt, hv⟩ := hi
      unfold validStep at hv
      simp only [Bool.and_eq_true, decide_eq_true_eq, Option.isSome_iff_exists] at hv
      obtain ⟨⟨h1, a, ha⟩, b, hb⟩ := hv
      rw [pctChange_getD, if_pos ⟨hlt, h1⟩, ha, hb]
      simp [ha, hb]
    have hget : (⟨[(CLOSE, (keptSteps c).map (fun i => c.getD i none)),
        (RETURN, (keptSteps c).map (fun i => (pctChange c 1).getD i none))]⟩ :
          DataFrame).getCol RETURN =
        some ((keptSteps c).map (fun i => (pctChange c 1).getD i none)) := rfl
    rw [hget, hmap]
  · rw [hd, keptRows_daily]
    have : (⟨[(CLOSE, (keptSteps c).map (fun i => c.getD i none)),
        (RETURN, (keptSteps c).map (fun i => (pctChange c 1).getD i none))]⟩ :
          DataFrame).nrows = ((keptSteps c).map (fun i => c.getD i none)).length := rfl
    rw [this, List.length_map]

/-! ### Claim C5 -/

theorem zip_take_eq : ∀ (ls ms : List ℚ),
    ls.zip ms = (ls.take ms.length).zip (ms.take ls.length)
  | [], ms => by simp
  | l :: ls, [] => by simp
  | l :: ls, m :: ms => by
    simp only [List.zip_cons_cons, List.length_cons, List.take_succ_cons]
    rw [← zip_take_eq ls ms]

/-- C5 counterexample: 2 leverages with 3 expense ratios is not an error;
the pairing is silently truncated to the first 2 expense ratios, and the
run succeeds. -/
theorem C5_runBatch_counterexample :
    compute_multiple_leverages ⟨[(CLOSE, [some 100, some 110])]⟩ [2, 3]
        [1/100, 1/100, 1/100] 1 =
      compute_multiple_leverages ⟨[(CLOSE, [some 100, some 110])]⟩ [2, 3]
        [1/100, 1/100] 1 ∧
    okNrows (compute_multiple_leverages ⟨[(CLOSE, [some 100, some 110])]⟩ [2, 3]
        [1/100, 1/100, 1/100] 1) = some 1 :=
  ⟨rfl, rfl⟩

/-- C5 amended: with leverage and expense sequences of different lengths,
`compute_multiple_leverages` processes the truncated pairing (the zip of the
two sequences) instead of raising an error. -/
theorem C5_runBatch_amended (df : DataFrame) (ls ms : List ℚ) (V : ℚ) :
    compute_multiple_leverages df ls ms V =
      compute_multiple_leverages df (ls.take ms.length) (ms.take ls.length) V := by
  unfold compute_multiple_leverages
  rw [zip_take_eq]

/-! ### Claim C8 -/

theorem cdr_c8_eval :
    compute_daily_returns ⟨[(CLOSE, [some 100, some 110, some 99, some (1089/10)])]⟩ =
      Except.ok ⟨[(CLOSE, [some 110, some 99, some (1089/10)]),
        (RETURN, [some (1/10), some (-1/10), some (1/10)])]⟩ := by
  have h0 : compute_daily_returns
      ⟨[(CLOSE, [some 100, some 110, some 99, some (1089/10)])]⟩ =
      Except.ok ⟨[(CLOSE, [some 110, some 99, some (1089/10)]),
        (RETURN, [some (110/100 - 1), some (99/110 - 1), some (1089/10/99 - 1)])]⟩ := rfl
  rw [h0]
  norm_num

theorem c8_pipeline_eval :
    (compute_daily_returns
        ⟨[(CLOSE, [some 100, some 110, some 99, some (1089/10)])]⟩).bind
      (fun d => compute_leveraged_returns d 2 100 false) =
    Except.ok ⟨[(CLOSE, [some 110, some 99, some (1089/10)]),
      (RETURN, [some (1/10), some (-1/10), some (1/10)]),
      (LEV_RETURN, [some (1/5), some (-1/5), some (1/5)]),
      (LEV_CLOSE, [some 120, some 96, some (576/5)])]⟩ := by
  rw [cdr_c8_eval]
  have hb : (Except.ok (⟨[(CLOSE, [some 110, some 99, some (1089/10)]),
        (RETURN, [some (1/10), some (-1/10), some (1/10)])]⟩ : DataFrame) :
        Except String DataFrame).bind (fun d => compute_leveraged_returns d 2 100 false) =
      compute_leveraged_returns ⟨[(CLOSE, [some 110, some 99, some (1089/10)]),
        (RETURN, [some (1/10), some (-1/10), some (1/10)])]⟩ 2 100 false := rfl
  rw [hb, clr_eval_plain ⟨[(CLOSE, [some 110, some 99, some (1089/10)]),
    (RETURN, [some (1/10), some (-1/10), some (1/10)])]⟩
    [some (1/10), some (-1/10), some (1/10)] 2 100 rfl]
  have h1 : colScale ([some (1/10), some (-1/10), some (1/10)] : Column) 2 =
      [some (1/5), some (-1/5), some (1/5)] := by
    norm_num [colScale]
  rw [h1]
  have h2 : colScale (colCumprod (colAddOne
      ([some (1/5), some (-1/5), some (1/5)] : Column))) 100 =
      [some 120, some 96, some (576/5)] := by
    norm_num [colScale, colAddOne, colCumprod, cumprodAux]
  rw [h2]
  rfl

/-- C8 counterexample: the leveraged-close column of the scenario has three
rows, `[120, 96, 115.2]`; it is not the four-element list
`[100, 120, 96, 115.2]` stated by the claim (100 is the compounding anchor,
not a row of the output). -/
theorem C8_scenario_counterexample :
    okGetCol ((compute_daily_returns
          ⟨[(CLOSE, [some 100, some 110, some 99, some (1089/10)])]⟩).bind
        (fun d => compute_leveraged_returns d 2 100 false)) LEV_CLOSE =
      some [some 120, some 96, some (576/5)] ∧
    some [some 120, some 96, some ((576 : ℚ)/5)] ≠
      some [some 100, some 120, some 96, some (576/5)] := by
  constructor
  · rw [c8_pipeline_eval]
    rfl
  · intro h
    rw [Option.some.injEq] at h
    have hl := congrArg List.length h
    simp at hl

/-- C8 amended: closes `[100, 110, 99, 108.9]` derive returns
`[0.10, -0.10, 0.10]`, and leverage 2 anchored at 100 yields the leveraged
closes `[120, 96, 115.2]`. -/
theorem C8_scenario_amended :
    (compute_daily_returns
        ⟨[(CLOSE, [some 100, some 110, some 99, some (1089/10)])]⟩).bind
      (fun d => compute_leveraged_returns d 2 100 false) =
    Except.ok ⟨[(CLOSE, [some 110, some 99, some (1089/10)]),
      (RETURN, [some (1/10), some (-1/10), some (1/10)]),
      (LEV_RETURN, [some (1/5), some (-1/5), some (1/5)]),
      (LEV_CLOSE, [some 120, some 96, some (576/5)])]⟩ :=
  c8_pipeline_eval

/-! ### Claim C4 -/

theorem bind_ok {ε α β : Type} (a : α) (f : α → Except ε β) :
    (Except.ok a : Except ε α).bind f = f a := rfl

theorem getColE_some (df : DataFrame) (n : String) (c : Column)
    (h : df.getCol n = some c) : getColE df n = Except.ok c := by
  simp [getColE, h]

theorem colScale_getD (c : Column) (k : ℚ) (i : Nat) :
    (colScale c k).getD i none = (c.getD i none).map (fun v => v * k) :=
  List.getD_map c none _

theorem dropna_nrows_zero (df : DataFrame) (n : String) (c : Column)
    (h : df.getCol n = some c) (hall : ∀ i, i < df.nrows → c.getD i none = none) :
    df.dropna.nrows = 0 := by
  have hkept : df.keptRows = [] := by
    unfold DataFrame.keptRows
    rw [List.filter_eq_nil_iff]
    intro i hi
    rw [List.mem_range] at hi
    obtain ⟨p, hp, hps⟩ : ∃ p, df.cols.find? (fun q => q.1 == n) = some p ∧ p.2 = c := by
      unfold DataFrame.getCol at h
      exact Option.map_eq_some'.mp h
    have hmem := List.mem_of_find?_eq_some hp
    intro hkeep
    rw [DataFrame.keepRow, List.all_eq_true] at hkeep
    have hx := hkeep p hmem
    rw [hps, hall i hi] at hx
    simp at hx
  unfold DataFrame.dropna DataFrame.nrows
  rw [hkept]
  cases hc : df.cols with
  | nil => simp [hc]
  | cons p rest => simp [hc]

theorem grr_eval (rdf : DataFrame) (A B : Column) (window : Nat) (V m L : ℚ)
    (h0 : compute_daily_returns rdf = Except.ok ⟨[(CLOSE, A), (RETURN, B)]⟩) :
    generate_rolling_returns rdf window V m L =
      Except.ok (DataFrame.dropna ⟨[
        (CLOSE, colScale (pctChange A window) 100),
        (RETURN, B),
        (LEV_RETURN, colScale B L),
        (LEV_CLOSE, colScale (pctChange
          (colScale (colCumprod (colAddOne (colScale B L))) V) window) 100),
        (ADJ_RETURN, colSubScalar (colScale B L) (m / 252)),
        (ADJ_CLOSE, colScale (pctChange
          (colScale (colCumprod (colAddOne
            (colSubScalar (colScale B L) (m / 252)))) V) window) 100)]⟩) := by
  unfold generate_rolling_returns
  rw [h0]
  rfl

/-- C4 counterexample: a rolling window equal to the series length does not
fail with any error; the run succeeds and yields a series with zero rows. -/
theorem C4_computeRollingReturn_counterexample :
    generate_rolling_returns ⟨[(CLOSE, [some 1, some 2, some 3])]⟩ 3 1 (1/100) 2 =
      Except.ok ⟨[(CLOSE, []), (RETURN, []), (LEV_RETURN, []), (LEV_CLOSE, []),
        (ADJ_RETURN, []), (ADJ_CLOSE, [])]⟩ ∧
    okNrows (generate_rolling_returns ⟨[(CLOSE, [some 1, some 2, some 3])]⟩ 3 1
      (1/100) 2) = some 0 :=
  ⟨rfl, rfl⟩

/-- C4 amended: whenever the window length is at least the length of the
price series, `generate_rolling_returns` silently succeeds with an entirely
empty result (zero rows) instead of raising an error. -/
theorem C4_computeRollingReturn_amended (cs : List ℚ) (window : Nat) (V m L : ℚ)
    (h : cs.length ≤ window) :
    ∃ out, generate_rolling_returns ⟨[(CLOSE, cs.map some)]⟩ window V m L =
        Except.ok out ∧ out.nrows = 0 := by
  refine ⟨_, grr_eval _ _ _ window V m L (cdr_allSome cs), ?_⟩
  refine dropna_nrows_zero ⟨[
      (CLOSE, colScale (pctChange ((cs.drop 1).map some) window) 100),
      (RETURN, (dailyReturns cs).map some),
      (LEV_RETURN, colScale ((dailyReturns cs).map some) L),
      (LEV_CLOSE, colScale (pctChange
        (colScale (colCumprod (colAddOne
          (colScale ((dailyReturns cs).map some) L))) V) window) 100),
      (ADJ_RETURN, colSubScalar (colScale ((dailyReturns cs).map some) L) (m / 252)),
      (ADJ_CLOSE, colScale (pctChange
        (colScale (colCumprod (colAddOne
          (colSubScalar (colScale ((dailyReturns cs).map some) L) (m / 252)))) V)
            window) 100)]⟩ CLOSE
    (colScale (pctChange ((cs.drop 1).map some) window) 100) rfl ?_
  intro i hi
  have hn : DataFrame.nrows ⟨[
      (CLOSE, colScale (pctChange ((cs.drop 1).map some) window) 100),
      (RETURN, (dailyReturns cs).map some),
      (LEV_RETURN, colScale ((dailyReturns cs).map some) L),
      (LEV_CLOSE, colScale (pctChange
        (colScale (colCumprod (colAddOne
          (colScale ((dailyReturns cs).map some) L))) V) window) 100),
      (ADJ_RETURN, colSubScalar (colScale ((dailyReturns cs).map some) L) (m / 252)),
      (ADJ_CLOSE, colScale (pctChange
        (colScale (colCumprod (colAddOne
          (colSubScalar (colScale ((dailyReturns cs).map some) L) (m / 252)))) V)
            window) 100)]⟩ =
      (colScale (pctChange ((cs.drop 1).map some) window) 100).length := rfl
  rw [hn, length_colScale, pctChange_length, List.length_map, List.length_drop] at hi
  rw [colScale_getD, pctChange_getD]
  rw [if_neg ?neg]
  case neg =>
    rintro ⟨-, hwi⟩
    omega
  rfl

/-- Witness for C4 amended: a 3-point series with window 4. -/
theorem C4_computeRollingReturn_amended_witness :
    ([1, 2, 3] : List ℚ).length ≤ 4 ∧
    ∃ out, generate_rolling_returns ⟨[(CLOSE, ([1, 2, 3] : List ℚ).map some)]⟩ 4 1 0 2 =
        Except.ok out ∧ out.nrows = 0 :=
  ⟨by decide, C4_computeRollingReturn_amended [1, 2, 3] 4 1 0 2 (by decide)⟩

/-! ### Claim C7: the round trip at leverage 1 and expense ratio 0 -/

theorem dailyReturns_length (cs : List ℚ) :
    (dailyReturns cs).length = cs.length - 1 := by
  simp [dailyReturns]

theorem dailyReturns_getD (cs : List ℚ) {j : Nat} (hj : j < cs.length - 1) :
    (dailyReturns cs).getD j 0 = cs.getD (j + 1) 0 / cs.getD j 0 - 1 := by
  unfold dailyReturns
  rw [List.getD_eq_getElem _ _ (by simpa using hj)]
  rw [List.getElem_map, List.getElem_range]

theorem getD_pos (cs : List ℚ) (hpos : ∀ x ∈ cs, 0 < x) (k : Nat)
    (hk : k < cs.length) : 0 < cs.getD k 0 := by
  rw [List.getD_eq_getElem _ _ hk]
  exact hpos _ (List.getElem_mem hk)

theorem prodOnePlus_succ (rs : List ℚ) (i : Nat) (h : i + 1 < rs.length) :
    prodOnePlus rs (i + 1) = prodOnePlus rs i * (1 + rs.getD (i + 1) 0) := by
  unfold prodOnePlus
  have ht : rs.take (i + 1 + 1) = rs.take (i + 1) ++ [rs.getD (i + 1) 0] := by
    rw [List.take_succ, List.getElem?_eq_getElem h]
    rw [List.getD_eq_getElem _ _ h]
    rfl
  rw [ht, List.map_append, List.prod_append]
  simp

theorem compound_eq_close (cs : List ℚ) (hpos : ∀ x ∈ cs, 0 < x) :
    ∀ i, i < cs.length - 1 →
      cs.getD 0 0 * prodOnePlus (dailyReturns cs) i = cs.getD (i + 1) 0 := by
  intro i
  induction i with
  | zero =>
    intro hi
    have hlen : 0 < (dailyReturns cs).length := by
      rw [dailyReturns_length]
      omega
    have ht : (dailyReturns cs).take 1 = [(dailyReturns cs).getD 0 0] := by
      cases hc : dailyReturns cs with
      | nil =>
        rw [hc] at hlen
        simp at hlen
      | cons a l => simp [List.getD]
    unfold prodOnePlus
    rw [zero_add, ht]
    rw [dailyReturns_getD cs hi]
    have h0 : (0 : ℚ) < cs.getD 0 0 := getD_pos cs hpos 0 (by omega)
    simp only [List.map_cons, List.map_nil, List.prod_cons, List.prod_nil, mul_one]
    have harr : (1 : ℚ) + (cs.getD 1 0 / cs.getD 0 0 - 1) = cs.getD 1 0 / cs.getD 0 0 := by
      ring
    rw [harr, mul_div_cancel₀ _ (ne_of_gt h0)]
  | succ i ih =>
    intro hi
    have hio : i < cs.length - 1 := by omega
    have hlen : i + 1 < (dailyReturns cs).length := by
      rw [dailyReturns_length]
      omega
    rw [prodOnePlus_succ _ _ hlen, ← mul_assoc, ih hio, dailyReturns_getD cs hi]
    have hne : cs.getD (i + 1) 0 ≠ 0 :=
      ne_of_gt (getD_pos cs hpos (i + 1) (by omega))
    have harr : (1 : ℚ) + (cs.getD (i + 1 + 1) 0 / cs.getD (i + 1) 0 - 1) =
        cs.getD (i + 1 + 1) 0 / cs.getD (i + 1) 0 := by
      ring
    rw [harr, mul_div_cancel₀ _ hne]

theorem levclose_eq_close (cs : List ℚ) (hpos : ∀ x ∈ cs, 0 < x) :
    (List.range (dailyReturns cs).length).map
        (fun i => some (cs.getD 0 0 * prodOnePlus (dailyReturns cs) i)) =
      (cs.drop 1).map some := by
  apply List.ext_getElem
  · simp [dailyReturns_length]
  · intro n h1 h2
    simp only [List.getElem_map, List.getElem_range]
    have hn : n < cs.length - 1 := by
      simp only [List.length_map, List.length_range, dailyReturns_length] at h1
      exact h1
    rw [compound_eq_close cs hpos n hn]
    rw [List.getD_eq_getElem _ _ (by omega : n + 1 < cs.length), List.getElem_drop]
    have hadd : 1 + n = n + 1 := Nat.add_comm 1 n
    simp only [hadd]

/-- C7: deriving returns, applying leverage 1.0 and expense ratio 0.0
anchored at the first close of the (positive) price series reproduces the
original close series exactly: the leveraged close column and the adjusted
close column both equal the close column. -/
theorem C7_roundTrip (cs : List ℚ) (hpos : ∀ x ∈ cs, 0 < x) :
    ∃ out,
      ((compute_daily_returns ⟨[(CLOSE, cs.map some)]⟩).bind
          (fun d => compute_leveraged_returns d 1 (cs.getD 0 0) false)).bind
        (fun d => adjust_for_mer d 0 (cs.getD 0 0) "") = Except.ok out ∧
      out.getCol CLOSE = some ((cs.drop 1).map some) ∧
      out.getCol LEV_CLOSE = out.getCol CLOSE ∧
      out.getCol ADJ_CLOSE = out.getCol CLOSE := by
  rw [cdr_allSome cs, bind_ok]
  have hX1 : colScale ((dailyReturns cs).map some) 1 = (dailyReturns cs).map some := by
    rw [colScale_map_some]
    simp
  rw [clr_eval_plain ⟨[(CLOSE, (cs.drop 1).map some),
      (RETURN, (dailyReturns cs).map some)]⟩
    ((dailyReturns cs).map some) 1 (cs.getD 0 0) rfl, hX1, bind_ok]
  have hX2 : colScale (colCumprod (colAddOne ((dailyReturns cs).map some)))
      (cs.getD 0 0) = (cs.drop 1).map some := by
    rw [compound_map_some]
    exact levclose_eq_close cs hpos
  rw [hX2]
  rw [afm_eval_unprefixed (((⟨[(CLOSE, (cs.drop 1).map some),
      (RETURN, (dailyReturns cs).map some)]⟩ : DataFrame).setCol LEV_RETURN
        ((dailyReturns cs).map some)).setCol LEV_CLOSE ((cs.drop 1).map some))
    ((dailyReturns cs).map some) 0 (cs.getD 0 0) (Or.inl rfl)]
  have hY1 : colSubScalar ((dailyReturns cs).map some) ((0 : ℚ) / 252) =
      (dailyReturns cs).map some := by
    rw [colSubScalar_map_some]
    simp
  rw [hY1, hX2]
  exact ⟨_, rfl, rfl, rfl, rfl⟩

/-- Witness for C7: the two-point positive close series `[1, 2]`. -/
theorem C7_roundTrip_witness :
    ∃ out,
      ((compute_daily_returns ⟨[(CLOSE, ([1, 2] : List ℚ).map some)]⟩).bind
          (fun d => compute_leveraged_returns d 1 (([1, 2] : List ℚ).getD 0 0) false)).bind
        (fun d => adjust_for_mer d 0 (([1, 2] : List ℚ).getD 0 0) "") = Except.ok out ∧
      out.getCol CLOSE = some ((([1, 2] : List ℚ).drop 1).map some) ∧
      out.getCol LEV_CLOSE = out.getCol CLOSE ∧
      out.getCol ADJ_CLOSE = out.getCol CLOSE :=
  C7_roundTrip [1, 2] (by norm_num)

/-! ### Claim C9: the bootstrap simulator -/

/-- C9: for a non-empty historical return sequence, any draw oracle, any
requested length and any initial value, `generate_random_returns` succeeds
and yields a synthetic series of exactly `size` rows (a synthetic integer
step index, no calendar timestamps) whose every return is an element of the
historical returns (drawn with replacement) and whose close path is
`close_i = initial_value * Π_{k ≤ i} (1 + return_k)`. -/
theorem C9_simulate (ref : DataFrame) (pick : Nat → Nat) (size : Nat)
    (V m L : ℚ) (d0 : DataFrame) (rets : List ℚ)
    (h0 : compute_daily_returns ref = Except.ok d0)
    (h1 : d0.getCol RETURN = some (rets.map some))
    (h2 : rets ≠ []) :
    ∃ sampled : List ℚ,
      sampled.length = size ∧
      (∀ x ∈ sampled, x ∈ rets) ∧
      okGetCol (generate_random_returns ref pick size V m L) RETURN =
        some (sampled.map some) ∧
      okGetCol (generate_random_returns ref pick size V m L) CLOSE =
        some ((List.range size).map (fun i => some (V * prodOnePlus sampled i))) ∧
      okNrows (generate_random_returns ref pick size V m L) = some size := by
  have hpos : 0 < rets.length := List.length_pos.mpr h2
  have hsam : (List.range size).map
      (fun i => (rets.map some).getD (pick i % (rets.map some).length) none) =
      ((List.range size).map (fun i => rets.getD (pick i % rets.length) 0)).map some := by
    rw [List.map_map]
    apply List.map_congr_left
    intro i _
    simp only [Function.comp_apply, List.length_map]
    exact getD_map_some rets (Nat.mod_lt _ hpos)
  refine ⟨(List.range size).map (fun i => rets.getD (pick i % rets.length) 0),
    by simp, ?_, ?_, ?_, ?_⟩
  · intro x hx
    obtain ⟨i, _, hix⟩ := List.mem_map.mp hx
    rw [← hix, List.getD_eq_getElem _ _ (Nat.mod_lt _ hpos)]
    exact List.getElem_mem _
  · unfold generate_random_returns
    rw [h0, bind_ok, getColE_some d0 RETURN (rets.map some) h1, bind_ok,
      if_neg (by simp [h2])]
    show some ((List.range size).map
        (fun i => (rets.map some).getD (pick i % (rets.map some).length) none)) = _
    rw [hsam]
  · unfold generate_random_returns
    rw [h0, bind_ok, getColE_some d0 RETURN (rets.map some) h1, bind_ok,
      if_neg (by simp [h2])]
    show some (colScale (colCumprod (colAddOne ((List.range size).map
        (fun i => (rets.map some).getD (pick i % (rets.map some).length) none)))) V) = _
    rw [hsam, compound_map_some, List.length_map, List.length_range]
  · unfold generate_random_returns
    rw [h0, bind_ok, getColE_some d0 RETURN (rets.map some) h1, bind_ok,
      if_neg (by simp [h2])]
    show some (((List.range size).map
        (fun i => (rets.map some).getD (pick i % (rets.map some).length) none)).length) =
      some size
    simp

/-- Witness for C9: history `[1]` (from closes `[1, 2]`), constant draw
oracle, requested length 2. -/
theorem C9_simulate_witness :
    ∃ sampled : List ℚ,
      sampled.length = 2 ∧
      (∀ x ∈ sampled, x ∈ ([2/1 - 1] : List ℚ)) ∧
      okGetCol (generate_random_returns ⟨[(CLOSE, [some 1, some 2])]⟩
          (fun _ => 0) 2 1 0 1) RETURN = some (sampled.map some) ∧
      okGetCol (generate_random_returns ⟨[(CLOSE, [some 1, some 2])]⟩
          (fun _ => 0) 2 1 0 1) CLOSE =
        some ((List.range 2).map (fun i => some (1 * prodOnePlus sampled i))) ∧
      okNrows (generate_random_returns ⟨[(CLOSE, [some 1, some 2])]⟩
          (fun _ => 0) 2 1 0 1) = some 2 :=
  C9_simulate ⟨[(CLOSE, [some 1, some 2])]⟩ (fun _ => 0) 2 1 0 1
    ⟨[(CLOSE, [some 2]), (RETURN, [some (2/1 - 1)])]⟩ [2/1 - 1] rfl rfl
    (by norm_num)

/-! ### Claim C10: the leverage transformer requires an existing return
column; only the batch operation derives one -/

theorem afm_eval_prefixed_fallback (df : DataFrame) (src : Column) (E V : ℚ)
    (s : String) (hs : ¬ s = "")
    (hc : df.hasCol (column_prefixer LEV_RETURN s) = false)
    (h : df.getCol RETURN = some src) :
    adjust_for_mer df E V s = Except.ok
      ((df.setCol (column_prefixer ADJ_RETURN s) (colSubScalar src (E / 252))).setCol
        (column_prefixer ADJ_CLOSE s)
        (colScale (colCumprod (colAddOne (colSubScalar src (E / 252)))) V)) := by
  simp [adjust_for_mer, hs, hc, h]

theorem afm_ok (d : DataFrame) (m V : ℚ) (s : String)
    (h : (d.getCol RETURN).isSome = true) :
    ∃ out, adjust_for_mer d m V s = Except.ok out ∧
      out.getCol RETURN = d.getCol RETURN := by
  by_cases hs : s = ""
  · subst hs
    by_cases hc : d.hasCol LEV_RETURN
    · obtain ⟨src, hsrc⟩ := Option.isSome_iff_exists.mp
        (by rw [getCol_isSome_iff_hasCol]; exact hc)
      refine ⟨_, afm_eval_unprefixed d src m V (Or.inl hsrc), ?_⟩
      rw [getCol_setCol_ne _ (by decide) _, getCol_setCol_ne _ (by decide) _]
    · obtain ⟨src, hsrc⟩ := Option.isSome_iff_exists.mp h
      have h0 : d.getCol LEV_RETURN = none := by
        rw [← Option.not_isSome_iff_eq_none, getCol_isSome_iff_hasCol]
        simpa using hc
      refine ⟨_, afm_eval_unprefixed d src m V (Or.inr ⟨h0, hsrc⟩), ?_⟩
      rw [getCol_setCol_ne _ (by decide) _, getCol_setCol_ne _ (by decide) _]
  · by_cases hc : d.hasCol (column_prefixer LEV_RETURN s)
    · obtain ⟨src, hsrc⟩ := Option.isSome_iff_exists.mp
        (by rw [getCol_isSome_iff_hasCol]; exact hc)
      refine ⟨_, afm_eval_prefixed d src m V s hs hsrc, ?_⟩
      rw [getCol_setCol_ne _
          (Ne.symm (column_prefixer_ne_short ADJ_CLOSE RETURN (by decide) s)) _,
        getCol_setCol_ne _
          (Ne.symm (column_prefixer_ne_short ADJ_RETURN RETURN (by decide) s)) _]
    · obtain ⟨src, hsrc⟩ := Option.isSome_iff_exists.mp h
      refine ⟨_, afm_eval_prefixed_fallback d src m V s hs (by simpa using hc) hsrc, ?_⟩
      rw [getCol_setCol_ne _
          (Ne.symm (column_prefixer_ne_short ADJ_CLOSE RETURN (by decide) s)) _,
        getCol_setCol_ne _
          (Ne.symm (column_prefixer_ne_short ADJ_RETURN RETURN (by decide) s)) _]

theorem clr_pre_getCol_RETURN (d : DataFrame) (rc : Column) (L V : ℚ)
    (h : d.getCol RETURN = some rc) :
    ∃ d1, compute_leveraged_returns d L V true = Except.ok d1 ∧
      d1.getCol RETURN = some rc := by
  refine ⟨_, clr_eval_pre d rc L V h, ?_⟩
  rw [getCol_setCol_ne _
      (Ne.symm (column_prefixer_ne_short LEV_CLOSE RETURN (by decide) _)) _,
    getCol_setCol_ne _
      (Ne.symm (column_prefixer_ne_short LEV_RETURN RETURN (by decide) _)) _, h]

theorem batchLoop_ok (V : ℚ) (pairs : List (ℚ × ℚ)) :
    ∀ d : DataFrame, (d.getCol RETURN).isSome = true →
      ∃ out, batchLoop V d pairs = Except.ok out ∧
        (out.getCol RETURN).isSome = true := by
  induction pairs with
  | nil => exact fun d h => ⟨d, rfl, h⟩
  | cons pr rest ih =>
    obtain ⟨lev, mer⟩ := pr
    intro d h
    obtain ⟨rc, hrc⟩ := Option.isSome_iff_exists.mp h
    obtain ⟨d1, hd1, hd1r⟩ := clr_pre_getCol_RETURN d rc lev V hrc
    obtain ⟨d2, hd2, hd2r⟩ := afm_ok d1 mer V (toString lev) (by rw [hd1r]; rfl)
    obtain ⟨out, hout, houtr⟩ := ih d2 (by rw [hd2r, hd1r]; rfl)
    refine ⟨out, ?_, houtr⟩
    show (compute_leveraged_returns d lev V true).bind _ = Except.ok out
    rw [hd1, bind_ok, hd2, bind_ok, hout]

/-- C10 (implicit): `compute_leveraged_returns` requires the base return
column to exist on its input and fails with a `KeyError` when it is absent,
never deriving the returns itself; `compute_multiple_leverages`, by
contrast, derives the returns from a price-only series itself and
succeeds. -/
theorem C10_applyLeverage_requires_returns (df : DataFrame) (L V : ℚ) (p : Bool)
    (h : df.getCol RETURN = none) (cs : List ℚ) (ls ms : List ℚ) (V2 : ℚ) :
    compute_leveraged_returns df L V p = Except.error "KeyError: Return" ∧
    ∃ out, compute_multiple_leverages ⟨[(CLOSE, cs.map some)]⟩ ls ms V2 =
        Except.ok out ∧ (out.getCol RETURN).isSome = true := by
  constructor
  · exact clr_keyError df L V p h
  · have hsplit : compute_multiple_leverages ⟨[(CLOSE, cs.map some)]⟩ ls ms V2 =
        (compute_daily_returns ⟨[(CLOSE, cs.map some)]⟩).bind fun d =>
          batchLoop V2 (removePreexisting d) (ls.zip ms) := rfl
    rw [hsplit, cdr_allSome cs, bind_ok]
    have hrm : removePreexisting ⟨[(CLOSE, (cs.drop 1).map some),
        (RETURN, (dailyReturns cs).map some)]⟩ =
        ⟨[(CLOSE, (cs.drop 1).map some), (RETURN, (dailyReturns cs).map some)]⟩ := rfl
    rw [hrm]
    exact batchLoop_ok V2 (ls.zip ms) _ rfl

/-- Witness for C10: a raw price-only series makes the leverage transformer
fail, while the batch run on closes `[1, 2]` with one parameter set
succeeds. -/
theorem C10_applyLeverage_requires_returns_witness :
    compute_leveraged_returns ⟨[(CLOSE, [some 5])]⟩ 2 1 false =
      Except.error "KeyError: Return" ∧
    ∃ out, compute_multiple_leverages ⟨[(CLOSE, ([1, 2] : List ℚ).map some)]⟩
        [2] [0] 1 = Except.ok out ∧ (out.getCol RETURN).isSome = true :=
  C10_applyLeverage_requires_returns ⟨[(CLOSE, [some 5])]⟩ 2 1 false rfl [1, 2] [2] [0] 1

/-! ### Claim C6: column keying across batch parameter sets -/

theorem cp_ne_any (r1 r2 s1 s2 : String) (hs : s1 ≠ s2)
    (hr : r1 = r2 ∨ (¬ ("x " ++ r1).data <:+ ("x " ++ r2).data ∧
      ¬ ("x " ++ r2).data <:+ ("x " ++ r1).data)) :
    column_prefixer r1 s1 ≠ column_prefixer r2 s2 := by
  rcases hr with heq | ⟨ha, hb⟩
  · subst heq
    exact column_prefixer_ne_same_col hs
  · exact column_prefixer_ne_cross ha hb s1 s2

theorem cdr_hasRETURN (df d : DataFrame)
    (h : compute_daily_returns df = Except.ok d) :
    (d.getCol RETURN).isSome = true := by
  unfold compute_daily_returns at h
  cases hc : df.getCol CLOSE with
  | none =>
    rw [hc] at h
    exact absurd h (by simp)
  | some close =>
    rw [hc] at h
    injection h with h'
    rw [← h', getCol_dropna, getCol_setCol_self]
    rfl

/-- One iteration of the batch loop: it sets exactly the four columns
prefixed by the rendered leverage — with the values that parameter set
computes from the input's base returns — and leaves every other column
unchanged. -/
theorem batch_iter (V lv mr : ℚ) (d : DataFrame) (rc : Column)
    (hrc : d.getCol RETURN = some rc) (hs : toString lv ≠ "") :
    ∃ d2, (∀ rest, batchLoop V d ((lv, mr) :: rest) = batchLoop V d2 rest) ∧
      (∀ x : String, x ≠ column_prefixer LEV_RETURN (toString lv) →
        x ≠ column_prefixer LEV_CLOSE (toString lv) →
        x ≠ column_prefixer ADJ_RETURN (toString lv) →
        x ≠ column_prefixer ADJ_CLOSE (toString lv) →
        d2.getCol x = d.getCol x) ∧
      d2.getCol (column_prefixer LEV_RETURN (toString lv)) =
        some (colScale rc lv) ∧
      d2.getCol (column_prefixer LEV_CLOSE (toString lv)) =
        some (colScale (colCumprod (colAddOne (colScale rc lv))) V) ∧
      d2.getCol (column_prefixer ADJ_RETURN (toString lv)) =
        some (colSubScalar (colScale rc lv) (mr / 252)) ∧
      d2.getCol (column_prefixer ADJ_CLOSE (toString lv)) =
        some (colScale (colCumprod (colAddOne
          (colSubScalar (colScale rc lv) (mr / 252)))) V) := by
  have hA := clr_eval_pre d rc lv V hrc
  have hgetLR : ((d.setCol (column_prefixer LEV_RETURN (toString lv))
      (colScale rc lv)).setCol (column_prefixer LEV_CLOSE (toString lv))
      (colScale (colCumprod (colAddOne (colScale rc lv))) V)).getCol
        (column_prefixer LEV_RETURN (toString lv)) = some (colScale rc lv) := by
    rw [getCol_setCol_ne _
        (column_prefixer_inj_col (show LEV_RETURN ≠ LEV_CLOSE by decide) _) _,
      getCol_setCol_self]
  have hB := afm_eval_prefixed
    ((d.setCol (column_prefixer LEV_RETURN (toString lv)) (colScale rc lv)).setCol
      (column_prefixer LEV_CLOSE (toString lv))
      (colScale (colCumprod (colAddOne (colScale rc lv))) V))
    (colScale rc lv) mr V (toString lv) hs hgetLR
  refine ⟨(((d.setCol (column_prefixer LEV_RETURN (toString lv))
      (colScale rc lv)).setCol (column_prefixer LEV_CLOSE (toString lv))
      (colScale (colCumprod (colAddOne (colScale rc lv))) V)).setCol
        (column_prefixer ADJ_RETURN (toString lv))
        (colSubScalar (colScale rc lv) (mr / 252))).setCol
        (column_prefixer ADJ_CLOSE (toString lv))
        (colScale (colCumprod (colAddOne
          (colSubScalar (colScale rc lv) (mr / 252)))) V),
    ?_, ?_, ?_, ?_, ?_, ?_⟩
  · intro rest
    show (compute_leveraged_returns d lv V true).bind _ = _
    rw [hA, bind_ok, hB, bind_ok]
  · intro x hx1 hx2 hx3 hx4
    rw [getCol_setCol_ne _ hx4 _, getCol_setCol_ne _ hx3 _,
      getCol_setCol_ne _ hx2 _, getCol_setCol_ne _ hx1 _]
  · rw [getCol_setCol_ne _
        (column_prefixer_inj_col (show LEV_RETURN ≠ ADJ_CLOSE by decide) _) _,
      getCol_setCol_ne _
        (column_prefixer_inj_col (show LEV_RETURN ≠ ADJ_RETURN by decide) _) _,
      hgetLR]
  · rw [getCol_setCol_ne _
        (column_prefixer_inj_col (show LEV_CLOSE ≠ ADJ_CLOSE by decide) _) _,
      getCol_setCol_ne _
        (column_prefixer_inj_col (show LEV_CLOSE ≠ ADJ_RETURN by decide) _) _,
      getCol_setCol_self]
  · rw [getCol_setCol_ne _
        (column_prefixer_inj_col (show ADJ_RETURN ≠ ADJ_CLOSE by decide) _) _,
      getCol_setCol_self]
  · rw [getCol_setCol_self]

/-- C6 counterexample: with the duplicate leverage sequence `[2, 2]`, the
second parameter set's columns overwrite the first set's entirely: the batch
result equals the single-set run with only the second expense ratio, and the
result holds 6 columns (one suffixed set), not two independent sets. -/
theorem C6_batchColumns_counterexample :
    compute_multiple_leverages ⟨[(CLOSE, [some 100, some 110])]⟩ [2, 2]
        [1/100, 2/100] 1 =
      compute_multiple_leverages ⟨[(CLOSE, [some 100, some 110])]⟩ [2] [2/100] 1 ∧
    okNcols (compute_multiple_leverages ⟨[(CLOSE, [some 100, some 110])]⟩ [2, 2]
        [1/100, 2/100] 1) = some 6 :=
  ⟨rfl, rfl⟩

/-- The batch loop over any ordered sequence of parameter sets with
pairwise-distinct (non-empty) rendered leverage labels: it preserves the
base return column and every untouched column, and every parameter set's
four suffixed columns appear in the result with exactly the values that set
computes from the shared base returns. -/
theorem batchLoop_cols (V : ℚ) : ∀ (ps : List (ℚ × ℚ)) (d : DataFrame) (rc : Column),
    d.getCol RETURN = some rc →
    (ps.map (fun p => toString p.1)).Pairwise (fun a b => a ≠ b) →
    (∀ p ∈ ps, toString p.1 ≠ "") →
    ∃ out, batchLoop V d ps = Except.ok out ∧
      out.getCol RETURN = some rc ∧
      (∀ x : String,
        (∀ p ∈ ps, x ≠ column_prefixer LEV_RETURN (toString p.1) ∧
          x ≠ column_prefixer LEV_CLOSE (toString p.1) ∧
          x ≠ column_prefixer ADJ_RETURN (toString p.1) ∧
          x ≠ column_prefixer ADJ_CLOSE (toString p.1)) →
        out.getCol x = d.getCol x) ∧
      ∀ p ∈ ps,
        out.getCol (column_prefixer LEV_RETURN (toString p.1)) =
          some (colScale rc p.1) ∧
        out.getCol (column_prefixer LEV_CLOSE (toString p.1)) =
          some (colScale (colCumprod (colAddOne (colScale rc p.1))) V) ∧
        out.getCol (column_prefixer ADJ_RETURN (toString p.1)) =
          some (colSubScalar (colScale rc p.1) (p.2 / 252)) ∧
        out.getCol (column_prefixer ADJ_CLOSE (toString p.1)) =
          some (colScale (colCumprod (colAddOne
            (colSubScalar (colScale rc p.1) (p.2 / 252)))) V)
  | [], d, rc, hrc, _, _ =>
    ⟨d, rfl, hrc, fun _ _ => rfl, fun p hp => absurd hp (List.not_mem_nil p)⟩
  | (lv, mr) :: rest, d, rc, hrc, hdist, hnem => by
    have hs : toString lv ≠ "" := hnem (lv, mr) (List.mem_cons_self _ _)
    obtain ⟨d2, hd2eq, hd2frame, hd2LR, hd2LC, hd2AR, hd2AC⟩ :=
      batch_iter V lv mr d rc hrc hs
    have hrc2 : d2.getCol RETURN = some rc := by
      rw [hd2frame RETURN
        (Ne.symm (column_prefixer_ne_short LEV_RETURN RETURN (by decide) _))
        (Ne.symm (column_prefixer_ne_short LEV_CLOSE RETURN (by decide) _))
        (Ne.symm (column_prefixer_ne_short ADJ_RETURN RETURN (by decide) _))
        (Ne.symm (column_prefixer_ne_short ADJ_CLOSE RETURN (by decide) _))]
      exact hrc
    rw [List.map_cons, List.pairwise_cons] at hdist
    obtain ⟨hhead, htail⟩ := hdist
    have hhead' : ∀ q ∈ rest, toString lv ≠ toString q.1 := fun q hq =>
      hhead _ (List.mem_map_of_mem _ hq)
    have hnem' : ∀ p ∈ rest, toString p.1 ≠ "" := fun p hp =>
      hnem p (List.mem_cons_of_mem _ hp)
    obtain ⟨out, houteq, houtR, houtframe, houtvals⟩ :=
      batchLoop_cols V rest d2 rc hrc2 htail hnem'
    refine ⟨out, ?_, houtR, ?_, ?_⟩
    · rw [hd2eq rest, houteq]
    · intro x hx
      obtain ⟨hx1, hx2, hx3, hx4⟩ := hx (lv, mr) (List.mem_cons_self _ _)
      rw [houtframe x (fun p hp => hx p (List.mem_cons_of_mem _ hp)),
        hd2frame x hx1 hx2 hx3 hx4]
    · intro p hp
      rcases List.mem_cons.mp hp with rfl | hmem
      · refine ⟨?_, ?_, ?_, ?_⟩
        · rw [houtframe _ (fun q hq =>
            ⟨cp_ne_any LEV_RETURN LEV_RETURN _ _ (hhead' q hq) (by decide),
             cp_ne_any LEV_RETURN LEV_CLOSE _ _ (hhead' q hq) (by decide),
             cp_ne_any LEV_RETURN ADJ_RETURN _ _ (hhead' q hq) (by decide),
             cp_ne_any LEV_RETURN ADJ_CLOSE _ _ (hhead' q hq) (by decide)⟩), hd2LR]
        · rw [houtframe _ (fun q hq =>
            ⟨cp_ne_any LEV_CLOSE LEV_RETURN _ _ (hhead' q hq) (by decide),
             cp_ne_any LEV_CLOSE LEV_CLOSE _ _ (hhead' q hq) (by decide),
             cp_ne_any LEV_CLOSE ADJ_RETURN _ _ (hhead' q hq) (by decide),
             cp_ne_any LEV_CLOSE ADJ_CLOSE _ _ (hhead' q hq) (by decide)⟩), hd2LC]
        · rw [houtframe _ (fun q hq =>
            ⟨cp_ne_any ADJ_RETURN LEV_RETURN _ _ (hhead' q hq) (by decide),
             cp_ne_any ADJ_RETURN LEV_CLOSE _ _ (hhead' q hq) (by decide),
             cp_ne_any ADJ_RETURN ADJ_RETURN _ _ (hhead' q hq) (by decide),
             cp_ne_any ADJ_RETURN ADJ_CLOSE _ _ (hhead' q hq) (by decide)⟩), hd2AR]
        · rw [houtframe _ (fun q hq =>
            ⟨cp_ne_any ADJ_CLOSE LEV_RETURN _ _ (hhead' q hq) (by decide),
             cp_ne_any ADJ_CLOSE LEV_CLOSE _ _ (hhead' q hq) (by decide),
             cp_ne_any ADJ_CLOSE ADJ_RETURN _ _ (hhead' q hq) (by decide),
             cp_ne_any ADJ_CLOSE ADJ_CLOSE _ _ (hhead' q hq) (by decide)⟩), hd2AC]
      · exact houtvals p hmem

/-- C6 amended: for every ordered sequence of parameter sets whose leverage
values render to pairwise-distinct (non-empty) column labels, each set
produces its own independently suffixed result columns: every set's four
columns are present in the batch output with exactly the values that set
computes from the shared base return column, so no set's results ever
overwrite another's.  Duplicate leverage values are excluded: they render to
identical labels and the later set overwrites the earlier one (see the
counterexample). -/
theorem C6_batchColumns_amended (df : DataFrame) (ps : List (ℚ × ℚ)) (V : ℚ)
    (out : DataFrame)
    (hdist : (ps.map (fun p => toString p.1)).Pairwise (fun a b => a ≠ b))
    (hnem : ∀ p ∈ ps, toString p.1 ≠ "")
    (hout : compute_multiple_leverages df (ps.map Prod.fst) (ps.map Prod.snd) V =
      Except.ok out) :
    ∃ rc : Column, out.getCol RETURN = some rc ∧
      ∀ p ∈ ps,
        out.getCol (column_prefixer LEV_RETURN (toString p.1)) =
          some (colScale rc p.1) ∧
        out.getCol (column_prefixer LEV_CLOSE (toString p.1)) =
          some (colScale (colCumprod (colAddOne (colScale rc p.1))) V) ∧
        out.getCol (column_prefixer ADJ_RETURN (toString p.1)) =
          some (colSubScalar (colScale rc p.1) (p.2 / 252)) ∧
        out.getCol (column_prefixer ADJ_CLOSE (toString p.1)) =
          some (colScale (colCumprod (colAddOne
            (colSubScalar (colScale rc p.1) (p.2 / 252)))) V) := by
  unfold compute_multiple_leverages at hout
  cases he : (if df.hasCol RETURN then Except.ok df else compute_daily_returns df) with
  | error e =>
    rw [he] at hout
    exact absurd hout (by simp [Except.bind])
  | ok d =>
    rw [he] at hout
    simp only [bind_ok] at hout
    have hdR : (d.getCol RETURN).isSome = true := by
      by_cases hb : df.hasCol RETURN
      · rw [if_pos hb] at he
        injection he with he'
        rw [← he', getCol_isSome_iff_hasCol]
        exact hb
      · rw [if_neg hb] at he
        exact cdr_hasRETURN df d he
    have hd0R : ((removePreexisting d).getCol RETURN).isSome = true := by
      unfold removePreexisting
      rw [getCol_delCol_ne _ (by decide), getCol_delCol_ne _ (by decide),
        getCol_delCol_ne _ (by decide), getCol_delCol_ne _ (by decide)]
      exact hdR
    obtain ⟨rc, hrc⟩ := Option.isSome_iff_exists.mp hd0R
    have hzip : (ps.map Prod.fst).zip (ps.map Prod.snd) = ps := by
      rw [List.zip_map',
        show (fun (a : ℚ × ℚ) => (a.1, a.2)) = id from funext fun a => rfl,
        List.map_id]
    rw [hzip] at hout
    obtain ⟨out', houteq, houtR, _, houtvals⟩ :=
      batchLoop_cols V ps (removePreexisting d) rc hrc hdist hnem
    rw [houteq] at hout
    injection hout with hout'
    subst hout'
    exact ⟨rc, houtR, houtvals⟩

/-- Witness for C6 amended: closes `[100, 110]` with the two parameter sets
(2, 0.01) and (3, 0.02), whose rendered labels "2" and "3" are distinct. -/
theorem C6_batchColumns_amended_witness :
    ∃ rc : Column,
      (((compute_multiple_leverages ⟨[(CLOSE, [some 100, some 110])]⟩
          (([((2 : ℚ), (1/100 : ℚ)), ((3 : ℚ), (2/100 : ℚ))]).map Prod.fst)
          (([((2 : ℚ), (1/100 : ℚ)), ((3 : ℚ), (2/100 : ℚ))]).map Prod.snd)
          1).toOption).getD ⟨[]⟩).getCol RETURN = some rc ∧
      ∀ p ∈ ([((2 : ℚ), (1/100 : ℚ)), ((3 : ℚ), (2/100 : ℚ))] : List (ℚ × ℚ)),
        (((compute_multiple_leverages ⟨[(CLOSE, [some 100, some 110])]⟩
            (([((2 : ℚ), (1/100 : ℚ)), ((3 : ℚ), (2/100 : ℚ))]).map Prod.fst)
            (([((2 : ℚ), (1/100 : ℚ)), ((3 : ℚ), (2/100 : ℚ))]).map Prod.snd)
            1).toOption).getD ⟨[]⟩).getCol
          (column_prefixer LEV_RETURN (toString p.1)) = some (colScale rc p.1) ∧
        (((compute_multiple_leverages ⟨[(CLOSE, [some 100, some 110])]⟩
            (([((2 : ℚ), (1/100 : ℚ)), ((3 : ℚ), (2/100 : ℚ))]).map Prod.fst)
            (([((2 : ℚ), (1/100 : ℚ)), ((3 : ℚ), (2/100 : ℚ))]).map Prod.snd)
            1).toOption).getD ⟨[]⟩).getCol
          (column_prefixer LEV_CLOSE (toString p.1)) =
          some (colScale (colCumprod (colAddOne (colScale rc p.1))) 1) ∧
        (((compute_multiple_leverages ⟨[(CLOSE, [some 100, some 110])]⟩
            (([((2 : ℚ), (1/100 : ℚ)), ((3 : ℚ), (2/100 : ℚ))]).map Prod.fst)
            (([((2 : ℚ), (1/100 : ℚ)), ((3 : ℚ), (2/100 : ℚ))]).map Prod.snd)
            1).toOption).getD ⟨[]⟩).getCol
          (column_prefixer ADJ_RETURN (toString p.1)) =
          some (colSubScalar (colScale rc p.1) (p.2 / 252)) ∧
        (((compute_multiple_leverages ⟨[(CLOSE, [some 100, some 110])]⟩
            (([((2 : ℚ), (1/100 : ℚ)), ((3 : ℚ), (2/100 : ℚ))]).map Prod.fst)
            (([((2 : ℚ), (1/100 : ℚ)), ((3 : ℚ), (2/100 : ℚ))]).map Prod.snd)
            1).toOption).getD ⟨[]⟩).getCol
          (column_prefixer ADJ_CLOSE (toString p.1)) =
          some (colScale (colCumprod (colAddOne
            (colSubScalar (colScale rc p.1) (p.2 / 252)))) 1) :=
  C6_batchColumns_amended ⟨[(CLOSE, [some 100, some 110])]⟩
    [((2 : ℚ), (1/100 : ℚ)), ((3 : ℚ), (2/100 : ℚ))] 1 _ (by decide) (by decide) rfl
